import Mathlib

/-!
Shallow embedding of the server in `backend/index.js` (the socket.io
room-coordination and execution-arbitration server).  JS `Map`s are modelled
as insertion-ordered association lists, JS `Set`s as insertion-ordered
duplicate-free lists, timestamps as `Int` (JS numbers at integral values),
and each socket handler as a pure function from server state and payload to
the new state plus the list of emitted events.  Emits carry a symbolic
recipient (`io.to(room)`, `socket.to(room)`, `socket.emit`); the separate
`delivers` function resolves a recipient against the socket.io room
membership of a given state.
-/

namespace RtcServer

/-- JS `Set.add`: no-op when the element is already present, otherwise
append (JS sets preserve insertion order). -/
def setAdd (l : List String) (u : String) : List String :=
  if u ∈ l then l else l ++ [u]

/-- JS `Set.delete` on a string set, where the deleted value may be `null`
(JS `null` deletes nothing from a set of strings). -/
def optErase (l : List String) : Option String → List String
  | none => l
  | some u => l.erase u

/-- JS truthiness of a nullable string: `null` and the empty string are falsy. -/
def optTruthy : Option String → Bool
  | none => false
  | some s => !(s == "")

/-- JS `Map.get`: the value at the first (only) matching key. -/
def alGet {K V : Type} [BEq K] : List (K × V) → K → Option V
  | [], _ => none
  | p :: rest, k => if p.1 == k then some p.2 else alGet rest k

/-- JS `Map.has`. -/
def alHas {K V : Type} [BEq K] (m : List (K × V)) (k : K) : Bool :=
  (alGet m k).isSome

/-- JS `Map.set`: replace in place when the key exists, else append
(JS maps preserve insertion order). -/
def alSet {K V : Type} [BEq K] : List (K × V) → K → V → List (K × V)
  | [], k, v => [(k, v)]
  | p :: rest, k, v => if p.1 == k then (k, v) :: rest else p :: alSet rest k v

/-- JS `Map.delete`. -/
def alDel {K V : Type} [BEq K] : List (K × V) → K → List (K × V)
  | [], _ => []
  | p :: rest, k => if p.1 == k then alDel rest k else p :: alDel rest k

/-- The keys of an association list, in order. -/
def alKeys {K V : Type} (m : List (K × V)) : List K := m.map Prod.fst

/-- One room object: `{ users: Set, code: String }`, plus the `output`
field that the compileCode handler writes onto the room. -/
structure Room where
  users : List String
  code : String
  output : Option String := none
deriving DecidableEq

/-- The room created by the join handler for an unknown id:
`{ users: new Set(), code: "// start code here" }`. -/
def defaultRoom : Room := { users := [], code := "// start code here" }

/-- The per-connection closure variables `currentRoom` / `currentUser`. -/
structure SockState where
  currentRoom : Option String := none
  currentUser : Option String := none
deriving DecidableEq

def defaultSock : SockState := {}

/-- Recipient of an emitted event: `io.to(roomId)`, `socket.to(roomId)`
(room minus sender), or `socket.emit` (a single socket). -/
inductive Recip
  | toRoom (roomId : String)
  | toRoomExcept (roomId : String) (sender : Nat)
  | toSock (sid : Nat)
deriving DecidableEq

/-- Payload of an emitted event.  `runOutput s` stands for the object
shape `run.output = s` used by codeResponse emissions. -/
inductive Payload
  | text (s : String)
  | userList (l : List String)
  | runOutput (s : String)
deriving DecidableEq

/-- One emitted socket.io event. -/
structure Emit where
  event : String
  recip : Recip
  payload : Payload
deriving DecidableEq

/-- Whole-server state: the room registry `rooms`, the per-socket closure
variables, the socket.io room membership (socket id to the list of
socket.io rooms it has joined), and the `lastCompileTime` rate-limit map. -/
structure ServerState where
  rooms : List (String × Room) := []
  socks : List (Nat × SockState) := []
  joined : List (Nat × List String) := []
  lastCompileTime : List (Nat × Int) := []
deriving DecidableEq

def initState : ServerState := {}

/-- The closure variables of socket `sid` (fresh sockets start at null/null). -/
def getSock (st : ServerState) (sid : Nat) : SockState :=
  (alGet st.socks sid).getD defaultSock

/-- JS `socket.join(r)` at the socket.io level. -/
def sioJoin (j : List (Nat × List String)) (sid : Nat) (r : String) :
    List (Nat × List String) :=
  let cur := (alGet j sid).getD []
  alSet j sid (if r ∈ cur then cur else cur ++ [r])

/-- JS `socket.leave(r)` at the socket.io level. -/
def sioLeave (j : List (Nat × List String)) (sid : Nat) (r : String) :
    List (Nat × List String) :=
  alSet j sid (((alGet j sid).getD []).erase r)

/-- Is socket `sid` currently in socket.io room `r`? -/
def inSio (st : ServerState) (sid : Nat) (r : String) : Bool :=
  ((alGet st.joined sid).getD []).contains r

/-- Does the emit `e`, dispatched in state `st`, get delivered to socket
`sid`?  `io.to(r)` reaches every socket in the socket.io room `r`;
`socket.to(r)` the same minus the sender; `socket.emit` its one target. -/
def delivers (st : ServerState) (e : Emit) (sid : Nat) : Bool :=
  match e.recip with
  | .toRoom r => inSio st sid r
  | .toRoomExcept r sender => !(sid == sender) && inSio st sid r
  | .toSock t => sid == t

/-- The guard phase of the join handler ("leave existing room cleanly
before joining a new one"): when `currentRoom` is truthy the socket leaves
it at the socket.io level, and if that room is registered the current user
is removed from its member set and the shrunk membership is broadcast.
Note: the emptied previous room is NOT deleted from the registry here. -/
def joinPrevPhase (st : ServerState) (sid : Nat) : ServerState × List Emit :=
  let sv := getSock st sid
  if optTruthy sv.currentRoom then
    let cur := sv.currentRoom.getD ""
    let st1 := { st with joined := sioLeave st.joined sid cur }
    match alGet st1.rooms cur with
    | some prevRoom =>
        let prevRoom2 := { prevRoom with users := optErase prevRoom.users sv.currentUser }
        ({ st1 with rooms := alSet st1.rooms cur prevRoom2 },
         [⟨"userJoined", Recip.toRoom cur, Payload.userList prevRoom2.users⟩])
    | none => (st1, [])
  else (st, [])

/-- The main phase of the join handler: set the closure variables, join the
socket.io room, create the registry room if absent, add the member, then
emit the toast (whole room), codeUpdate (joiner only), userJoined (whole
room) — in exactly that order. -/
def joinMainPhase (st : ServerState) (sid : Nat) (roomId userName : String) :
    ServerState × List Emit :=
  let st1 := { st with socks := alSet st.socks sid ⟨some roomId, some userName⟩ }
  let st2 := { st1 with joined := sioJoin st1.joined sid roomId }
  let st3 := if alHas st2.rooms roomId then st2
             else { st2 with rooms := alSet st2.rooms roomId defaultRoom }
  let room := (alGet st3.rooms roomId).getD defaultRoom
  let room2 := { room with users := setAdd room.users userName }
  let st4 := { st3 with rooms := alSet st3.rooms roomId room2 }
  (st4, [⟨"toast", Recip.toRoom roomId, Payload.text (userName ++ " joined the room")⟩,
         ⟨"codeUpdate", Recip.toSock sid, Payload.text room2.code⟩,
         ⟨"userJoined", Recip.toRoom roomId, Payload.userList room2.users⟩])

/-- The `join` handler. -/
def joinHandler (st : ServerState) (sid : Nat) (roomId userName : String) :
    ServerState × List Emit :=
  let p := joinPrevPhase st sid
  let q := joinMainPhase p.1 sid roomId userName
  (q.1, p.2 ++ q.2)

/-- The `codeChange` handler: silently dropped when the room id is not
registered; otherwise store the latest code and broadcast it to the other
members (not the sender). -/
def codeChangeHandler (st : ServerState) (sid : Nat) (roomId code : String) :
    ServerState × List Emit :=
  match alGet st.rooms roomId with
  | none => (st, [])
  | some room =>
      ({ st with rooms := alSet st.rooms roomId { room with code := code } },
       [⟨"codeUpdate", Recip.toRoomExcept roomId sid, Payload.text code⟩])

/-- The `leaveRoom` handler: guarded on truthy closure variables and on the
room existing; the toast is emitted before the user is removed, then the
shrunk membership is broadcast, the socket leaves at the socket.io level,
and an emptied room is deleted from the registry. -/
def leaveRoomHandler (st : ServerState) (sid : Nat) : ServerState × List Emit :=
  let sv := getSock st sid
  if optTruthy sv.currentRoom && optTruthy sv.currentUser then
    let cur := sv.currentRoom.getD ""
    let u := sv.currentUser.getD ""
    match alGet st.rooms cur with
    | none => (st, [])
    | some room =>
        let room2 := { room with users := room.users.erase u }
        let st1 := { st with rooms := alSet st.rooms cur room2 }
        let st2 := { st1 with joined := sioLeave st1.joined sid cur }
        let st3 := if room2.users.length = 0 then { st2 with rooms := alDel st2.rooms cur }
                   else st2
        let st4 := { st3 with socks := alSet st3.socks sid ⟨none, none⟩ }
        (st4, [⟨"toast", Recip.toRoom cur, Payload.text (u ++ " left the room")⟩,
               ⟨"userJoined", Recip.toRoom cur, Payload.userList room2.users⟩])
  else (st, [])

/-- The `disconnect` handler.  socket.io removes a disconnecting socket
from every socket.io room before the handler runs; then the handler runs
with the same guards as leaveRoom, deletes an emptied room, and clears the
socket's rate-limit entry. -/
def disconnectHandler (st : ServerState) (sid : Nat) : ServerState × List Emit :=
  let st0 := { st with joined := alDel st.joined sid }
  let sv := getSock st0 sid
  if optTruthy sv.currentRoom && optTruthy sv.currentUser then
    let cur := sv.currentRoom.getD ""
    let u := sv.currentUser.getD ""
    match alGet st0.rooms cur with
    | none => (st0, [])
    | some room =>
        let room2 := { room with users := room.users.erase u }
        let st1 := { st0 with rooms := alSet st0.rooms cur room2 }
        let st2 := if room2.users.length = 0 then { st1 with rooms := alDel st1.rooms cur }
                   else st1
        let st3 := { st2 with lastCompileTime := alDel st2.lastCompileTime sid }
        let st4 := { st3 with socks := alSet st3.socks sid ⟨none, none⟩ }
        (st4, [⟨"toast", Recip.toRoom cur, Payload.text (u ++ " disconnected")⟩,
               ⟨"userJoined", Recip.toRoom cur, Payload.userList room2.users⟩])
  else (st0, [])

/-- The `typing` handler: no registry lookup at all, a bare
`socket.to(roomId)` broadcast. -/
def typingHandler (st : ServerState) (sid : Nat) (roomId userName : String) :
    ServerState × List Emit :=
  (st, [⟨"userTyping", Recip.toRoomExcept roomId sid, Payload.text userName⟩])

/-- The `languageChange` handler: no registry lookup at all, an
`io.to(roomId)` broadcast to the whole room including the sender. -/
def languageChangeHandler (st : ServerState) (sid : Nat) (roomId language : String) :
    ServerState × List Emit :=
  (st, [⟨"languageUpdate", Recip.toRoom roomId, Payload.text language⟩])

/-- Result of a JS bracket lookup on a plain object literal: an own data
property holding a string, a truthy function or object inherited from
Object.prototype through the prototype chain, or undefined. -/
inductive JsProp
  | strVal (s : String)
  | inherited
  | undef
deriving DecidableEq

/-- Property names a plain object literal inherits from Object.prototype;
looking any of them up yields a function (or, for __proto__, an object),
never undefined. -/
def objectPrototypeKeys : List String :=
  ["constructor", "toString", "toLocaleString", "valueOf", "hasOwnProperty",
   "isPrototypeOf", "propertyIsEnumerable", "__proto__",
   "__defineGetter__", "__defineSetter__", "__lookupGetter__", "__lookupSetter__"]

/-- The lookup `WANDBOX_COMPILERS[language]` on the static
language-to-Wandbox-compiler object literal.  The four listed tags are own
entries; every Object.prototype property name is found through the
prototype chain (the object literal is not a null-prototype object or a
Map); anything else is undefined. -/
def WANDBOX_COMPILERS : String → JsProp
  | "javascript" => JsProp.strVal "nodejs-20.17.0"
  | "python" => JsProp.strVal "cpython-3.12.7"
  | "java" => JsProp.strVal "openjdk-jdk-22+36"
  | "cpp" => JsProp.strVal "gcc-13.2.0"
  | l => if l ∈ objectPrototypeKeys then JsProp.inherited else JsProp.undef

/-- JS truthiness of the looked-up compiler value, as tested by
`if (!compiler)`: undefined is falsy, inherited functions and objects are
truthy, and a string is truthy unless empty. -/
def jsPropTruthy : JsProp → Bool
  | JsProp.strVal s => !(s == "")
  | JsProp.inherited => true
  | JsProp.undef => false

/-- A Wandbox response body.  JS reads four optional fields; an absent or
empty field is falsy, so both are modelled as the empty string. -/
structure WandboxResponse where
  compiler_error : String := ""
  program_output : String := ""
  program_error : String := ""
  status : String := ""
deriving DecidableEq

/-- Outcome of one axios call to the provider: a response, or a thrown
error carrying its JS `err.code` and `err.message`. -/
inductive ProviderOutcome
  | ok (resp : WandboxResponse)
  | err (code message : String)

/-- Result of the retry loop: the final result, the number of provider
calls made, and the sleep lengths (ms) taken between calls. -/
structure RetryResult where
  result : Except (String × String) WandboxResponse
  calls : Nat
  delays : List Int

/-- The transient error classes retried by the loop:
`err.code` of ECONNRESET or ETIMEDOUT. -/
def transientCode (c : String) : Prop := c = "ECONNRESET" ∨ c = "ETIMEDOUT"

instance (c : String) : Decidable (transientCode c) := by
  unfold transientCode; infer_instance

/-- The retry loop of the compileCode handler: rethrow when `retries` is
exhausted or the error is not transient, otherwise sleep 1000 ms,
decrement `retries` and call again.  `provider n` is the outcome of the
n-th provider call of this submission. -/
def retryLoop (provider : Nat → ProviderOutcome) (attempt : Nat) :
    Nat → RetryResult
  | 0 =>
      match provider attempt with
      | .ok resp => ⟨.ok resp, 1, []⟩
      | .err c m => ⟨.error (c, m), 1, []⟩
  | r + 1 =>
      match provider attempt with
      | .ok resp => ⟨.ok resp, 1, []⟩
      | .err c m =>
          if transientCode c then
            let rest := retryLoop provider (attempt + 1) r
            ⟨rest.result, rest.calls + 1, 1000 :: rest.delays⟩
          else ⟨.error (c, m), 1, []⟩

/-- Response normalization of the compileCode handler: concatenate
`compiler_error` and `program_output` directly, prepend a newline to
`program_error` only when earlier text exists, and fall back on the
provider's `status === "0"` success signal when all text is empty. -/
def normalizeOutput (data : WandboxResponse) : String :=
  let o1 := if !(data.compiler_error == "") then "" ++ data.compiler_error else ""
  let o2 := if !(data.program_output == "") then o1 ++ data.program_output else o1
  let o3 := if !(data.program_error == "") then
              o2 ++ (if !(o2 == "") then "\n" else "") ++ data.program_error
            else o2
  if o3 == "" then (if data.status == "0" then "(No output)" else "Compilation/runtime error")
  else o3

/-- JS `Math.ceil(rem / 1000)` as used on the (always positive) remaining
cooldown: for `rem > 0` this Euclidean form agrees with the JS ceiling. -/
def ceilSeconds (rem : Int) : Int := (rem + 999) / 1000

/-- The cooldown constant `COMPILE_COOLDOWN_MS`. -/
def COMPILE_COOLDOWN_MS : Int := 3000

/-- Result of running the compileCode handler: new state, emitted events,
number of provider calls, and sleeps taken inside the retry loop. -/
structure CompileOutcome where
  state : ServerState
  emits : List Emit
  calls : Nat
  delays : List Int

/-- The `compileCode` handler: drop if the room is unregistered; reject
inside the cooldown window with a wait toast (leaving all state
unchanged); stamp `lastCompileTime`; look the compiler up and fail with an
unsupported-language result when the looked-up value is falsy (no provider
call); otherwise run the retry loop, and either record and broadcast the
normalized output or — on a hard failure — clear the socket's rate-limit
entry and broadcast the error.  Note the falsiness test means a tag naming
an inherited Object.prototype property passes the check. -/
def compileCodeHandler (st : ServerState) (sid : Nat) (now : Int)
    (provider : Nat → ProviderOutcome) (code roomId language : String) :
    CompileOutcome :=
  if alHas st.rooms roomId then
    let last : Int := (alGet st.lastCompileTime sid).getD 0
    if now - last < COMPILE_COOLDOWN_MS then
      { state := st,
        emits := [⟨"codeResponse", Recip.toRoom roomId,
          Payload.runOutput ("⏳ Please wait "
            ++ toString (ceilSeconds (COMPILE_COOLDOWN_MS - (now - last)))
            ++ "s before running again.")⟩],
        calls := 0, delays := [] }
    else
      let st1 := { st with lastCompileTime := alSet st.lastCompileTime sid now }
      let compiler := WANDBOX_COMPILERS language
      if !(jsPropTruthy compiler) then
          { state := st1,
            emits := [⟨"codeResponse", Recip.toRoom roomId,
              Payload.runOutput ("Error: Unsupported language \"" ++ language ++ "\"")⟩],
            calls := 0, delays := [] }
      else
          let rr := retryLoop provider 0 2
          match rr.result with
          | .ok resp =>
              let output := normalizeOutput resp
              let st2 :=
                match alGet st1.rooms roomId with
                | some room =>
                    { st1 with rooms := alSet st1.rooms roomId { room with output := some output } }
                | none => st1
              { state := st2,
                emits := [⟨"codeResponse", Recip.toRoom roomId, Payload.runOutput output⟩],
                calls := rr.calls, delays := rr.delays }
          | .error e =>
              { state := { st1 with lastCompileTime := alDel st1.lastCompileTime sid },
                emits := [⟨"codeResponse", Recip.toRoom roomId,
                  Payload.runOutput ("Error: " ++ e.2)⟩],
                calls := rr.calls, delays := rr.delays }
  else { state := st, emits := [], calls := 0, delays := [] }

/-- Inbound events other than compileCode (which also needs a clock and a
provider and is modelled separately by `compileCodeHandler`). -/
inductive Event
  | join (sid : Nat) (roomId userName : String)
  | leaveRoom (sid : Nat)
  | disconnect (sid : Nat)
  | codeChange (sid : Nat) (roomId code : String)
  | typing (sid : Nat) (roomId userName : String)
  | languageChange (sid : Nat) (roomId language : String)

/-- Dispatch one inbound event. -/
def stepEvent (st : ServerState) : Event → ServerState × List Emit
  | .join sid roomId userName => joinHandler st sid roomId userName
  | .leaveRoom sid => leaveRoomHandler st sid
  | .disconnect sid => disconnectHandler st sid
  | .codeChange sid roomId code => codeChangeHandler st sid roomId code
  | .typing sid roomId userName => typingHandler st sid roomId userName
  | .languageChange sid roomId language => languageChangeHandler st sid roomId language

/-- Run a sequence of inbound events from a state, keeping only the state. -/
def runEvents (st : ServerState) (evs : List Event) : ServerState :=
  evs.foldl (fun s e => (stepEvent s e).1) st

/-! Definitions used to state the claims. -/

/-- Spec-reading of the normalization ("concatenated compiler/diagnostic
text, then program output, then program error text, each on its own line
if present"): the nonempty fields joined by newlines.  Declared to be
compared against `normalizeOutput`, which is translated from the source. -/
def specSeparatedNormalize (data : WandboxResponse) : String :=
  let parts := [data.compiler_error, data.program_output, data.program_error].filter
    (fun s => !(s == ""))
  if parts.isEmpty then
    (if data.status == "0" then "(No output)" else "Compilation/runtime error")
  else String.intercalate "\n" parts

/-- The shape `normalizeOutput` actually has: compiler text and program
output concatenated directly (no separator), program error preceded by a
newline only when earlier text exists, and the status-based fallback when
all three are empty. -/
def normalizeCharacterization (data : WandboxResponse) : String :=
  let pre := data.compiler_error ++ data.program_output
  let all := if data.program_error = "" then pre
             else if pre = "" then data.program_error
             else pre ++ "\n" ++ data.program_error
  if all = "" then (if data.status = "0" then "(No output)" else "Compilation/runtime error")
  else all

/-- Is an emit addressed to a whole room (`io.to`)? -/
def isRoomWide (e : Emit) : Bool :=
  match e.recip with
  | .toRoom _ => true
  | _ => false

/-- Formal reading of claim C4 on the emit sequence of one join: some
codeUpdate addressed to the joiner alone precedes every whole-room emit,
and the joiner alone also receives a language snapshot. -/
def c4SnapshotFirst (emits : List Emit) (joiner : Nat) : Bool :=
  ((emits.takeWhile (fun e => !(isRoomWide e))).any
      (fun e => decide (e.recip = Recip.toSock joiner) && (e.event == "codeUpdate")))
    && (emits.any
      (fun e => decide (e.recip = Recip.toSock joiner) && (e.event == "languageUpdate")))

/-- How many registered rooms have `name` in their member set. -/
def countRoomsWithMember (rooms : List (String × Room)) (name : String) : Nat :=
  (rooms.filter (fun p => decide (name ∈ p.2.users))).length

/-- Run a sequence of join events of socket 0 (room id, user name pairs)
from the initial state. -/
def joinSeq (evs : List (String × String)) : ServerState :=
  runEvents initState (evs.map (fun p => Event.join 0 p.1 p.2))

/-- Invariant for a lone socket 0 that only ever joins: registry keys are
duplicate-free, every registered room is empty except possibly the
socket's current room which holds exactly its current user, and
`currentRoom` is never the (falsy) empty string. -/
def soloInv (st : ServerState) : Prop :=
  (alKeys st.rooms).Nodup ∧
  (∀ p ∈ st.rooms, p.2.users = [] ∨
      ((getSock st 0).currentRoom = some p.1 ∧
       ∃ u, (getSock st 0).currentUser = some u ∧ p.2.users = [u])) ∧
  (∀ c, (getSock st 0).currentRoom = some c → c ≠ "")

/-! Concrete scenario states referenced by the claims. -/

/-- A provider that always answers with a successful run printing a line. -/
def provOk : Nat → ProviderOutcome :=
  fun _ => ProviderOutcome.ok { program_output := "hello\n", status := "0" }

/-- State after socket 0 joined room r1 as alice. -/
def oneUserState : ServerState :=
  runEvents initState [Event.join 0 "r1" "alice"]

/-- First compileCode submission of the rate-limit scenario (t = 100000). -/
def c2run1 : CompileOutcome :=
  compileCodeHandler oneUserState 0 100000 provOk "x" "r1" "javascript"

/-- Second submission, 500 ms after the first. -/
def c2run2 : CompileOutcome :=
  compileCodeHandler c2run1.state 0 100500 provOk "x" "r1" "javascript"

/-- Third submission, 3100 ms after the first. -/
def c2run3 : CompileOutcome :=
  compileCodeHandler c2run2.state 0 103100 provOk "x" "r1" "javascript"

/-- A provider whose first two calls fail transiently (connection reset,
then timeout) and whose third call succeeds. -/
def provRetry : Nat → ProviderOutcome
  | 0 => ProviderOutcome.err "ECONNRESET" "socket hang up"
  | 1 => ProviderOutcome.err "ETIMEDOUT" "timeout of 30000ms exceeded"
  | _ => ProviderOutcome.ok { program_output := "hello\n", status := "0" }

/-- A provider whose first call fails with a non-transient error. -/
def provHardFail : Nat → ProviderOutcome
  | _ => ProviderOutcome.err "ERR_BAD_REQUEST" "Request failed with status code 400"

/-- State in which the registry has no room r1 but socket 1 is still in the
socket.io room r1: sockets 0 and 1 joined r1 under the same display name,
then socket 0 left, emptying (and deleting) the registry room while only
leaving the socket.io room itself. -/
def ghostRoomState : ServerState :=
  runEvents initState
    [Event.join 0 "r1" "alice", Event.join 1 "r1" "alice", Event.leaveRoom 0]

/-! Association-list lemmas. -/

theorem alGet_eq_none_of_alHas_false {K V : Type} [BEq K] {m : List (K × V)} {k : K}
    (h : alHas m k = false) : alGet m k = none := by
  unfold alHas at h
  cases hg : alGet m k with
  | none => rfl
  | some v => rw [hg] at h; simp at h

theorem alGet_alSet_self {K V : Type} [BEq K] [LawfulBEq K] (m : List (K × V)) (k : K) (v : V) :
    alGet (alSet m k v) k = some v := by
  induction m with
  | nil => simp [alSet, alGet]
  | cons p rest ih =>
      cases h : p.1 == k with
      | true => simp [alSet, h, alGet]
      | false => simp [alSet, h, alGet, ih]

theorem alSet_alSet_self {K V : Type} [BEq K] [LawfulBEq K] (m : List (K × V)) (k : K) (v w : V) :
    alSet (alSet m k v) k w = alSet m k w := by
  induction m with
  | nil => simp [alSet]
  | cons p rest ih =>
      cases h : p.1 == k with
      | true => simp [alSet, h]
      | false => simp [alSet, h, ih]

theorem alGet_alDel_self {K V : Type} [BEq K] (m : List (K × V)) (k : K) :
    alGet (alDel m k) k = none := by
  induction m with
  | nil => rfl
  | cons p rest ih =>
      cases h : p.1 == k with
      | true => simpa [alDel, h] using ih
      | false => simp [alDel, h, alGet, ih]

theorem string_append_eq_empty_iff (s t : String) : s ++ t = "" ↔ s = "" ∧ t = "" := by
  rw [String.ext_iff, String.ext_iff, String.ext_iff, String.data_append]
  rw [show ("" : String).data = [] from rfl]
  exact List.append_eq_nil

/-! Retry-loop lemmas. -/

theorem retryLoop_calls_pos (provider : Nat → ProviderOutcome) (attempt r : Nat) :
    1 ≤ (retryLoop provider attempt r).calls := by
  cases r with
  | zero => cases h : provider attempt <;> simp [retryLoop, h]
  | succ n =>
      cases h : provider attempt with
      | ok resp => simp [retryLoop, h]
      | err c m =>
          by_cases ht : transientCode c
          · simp [retryLoop, h, ht]
          · simp [retryLoop, h, ht]

theorem retryLoop_calls_le (provider : Nat → ProviderOutcome) (attempt r : Nat) :
    (retryLoop provider attempt r).calls ≤ r + 1 := by
  induction r generalizing attempt with
  | zero => cases h : provider attempt <;> simp [retryLoop, h]
  | succ n ih =>
      cases h : provider attempt with
      | ok resp => simp [retryLoop, h]
      | err c m =>
          by_cases ht : transientCode c
          · have := ih (attempt + 1)
            simp only [retryLoop, h, ht, if_true]
            omega
          · simp [retryLoop, h, ht]

theorem retryLoop_first_nontransient (provider : Nat → ProviderOutcome) (c m : String)
    (h0 : provider 0 = .err c m) (hnt : ¬ transientCode c) :
    retryLoop provider 0 2 = ⟨.error (c, m), 1, []⟩ := by
  simp [retryLoop, h0, hnt]

theorem retryLoop_two_transient_then_ok (provider : Nat → ProviderOutcome)
    (ca ma cb mb : String) (resp : WandboxResponse)
    (h0 : provider 0 = .err ca ma) (ha : transientCode ca)
    (h1 : provider 1 = .err cb mb) (hb : transientCode cb)
    (h2 : provider 2 = .ok resp) :
    retryLoop provider 0 2 = ⟨.ok resp, 3, [1000, 1000]⟩ := by
  simp [retryLoop, h0, ha, h1, hb, h2]

theorem retryLoop_exhausted (provider : Nat → ProviderOutcome)
    (ca ma cb mb cc mc : String)
    (h0 : provider 0 = .err ca ma) (ha : transientCode ca)
    (h1 : provider 1 = .err cb mb) (hb : transientCode cb)
    (h2 : provider 2 = .err cc mc) :
    retryLoop provider 0 2 = ⟨.error (cc, mc), 3, [1000, 1000]⟩ := by
  simp [retryLoop, h0, ha, h1, hb, h2]

/-! Shape lemmas for the compileCode handler. -/

theorem compileCode_drop (st : ServerState) (sid : Nat) (now : Int)
    (provider : Nat → ProviderOutcome) (code roomId language : String)
    (hroom : alHas st.rooms roomId = false) :
    compileCodeHandler st sid now provider code roomId language =
      { state := st, emits := [], calls := 0, delays := [] } := by
  unfold compileCodeHandler
  rw [hroom]
  simp

theorem compileCode_reject (st : ServerState) (sid : Nat) (now : Int)
    (provider : Nat → ProviderOutcome) (code roomId language : String)
    (hroom : alHas st.rooms roomId = true)
    (hlt : now - (alGet st.lastCompileTime sid).getD 0 < 3000) :
    compileCodeHandler st sid now provider code roomId language =
      { state := st,
        emits := [⟨"codeResponse", Recip.toRoom roomId, Payload.runOutput
          ("⏳ Please wait "
            ++ toString (ceilSeconds (3000 - (now - (alGet st.lastCompileTime sid).getD 0)))
            ++ "s before running again.")⟩],
        calls := 0, delays := [] } := by
  unfold compileCodeHandler
  rw [hroom]
  simp only [COMPILE_COOLDOWN_MS, if_true]
  rw [if_pos hlt]

theorem compileCode_unsupported (st : ServerState) (sid : Nat) (now : Int)
    (provider : Nat → ProviderOutcome) (code roomId language : String)
    (hroom : alHas st.rooms roomId = true)
    (hge : ¬ (now - (alGet st.lastCompileTime sid).getD 0 < 3000))
    (hlang : jsPropTruthy (WANDBOX_COMPILERS language) = false) :
    compileCodeHandler st sid now provider code roomId language =
      { state := { st with lastCompileTime := alSet st.lastCompileTime sid now },
        emits := [⟨"codeResponse", Recip.toRoom roomId,
          Payload.runOutput ("Error: Unsupported language \"" ++ language ++ "\"")⟩],
        calls := 0, delays := [] } := by
  unfold compileCodeHandler
  rw [hroom]
  simp only [COMPILE_COOLDOWN_MS, if_true]
  rw [if_neg hge]
  simp only [hlang, Bool.not_false, if_true]

theorem compileCode_provider_ok (st : ServerState) (sid : Nat) (now : Int)
    (provider : Nat → ProviderOutcome) (code roomId language : String)
    (room : Room) (resp : WandboxResponse) (n : Nat) (ds : List Int)
    (hroom : alGet st.rooms roomId = some room)
    (hge : ¬ (now - (alGet st.lastCompileTime sid).getD 0 < 3000))
    (hlang : jsPropTruthy (WANDBOX_COMPILERS language) = true)
    (hrr : retryLoop provider 0 2 = ⟨.ok resp, n, ds⟩) :
    compileCodeHandler st sid now provider code roomId language =
      { state := { st with
          lastCompileTime := alSet st.lastCompileTime sid now,
          rooms := alSet st.rooms roomId { room with output := some (normalizeOutput resp) } },
        emits := [⟨"codeResponse", Recip.toRoom roomId,
          Payload.runOutput (normalizeOutput resp)⟩],
        calls := n, delays := ds } := by
  have hhas : alHas st.rooms roomId = true := by
    unfold alHas; rw [hroom]; rfl
  unfold compileCodeHandler
  rw [hhas]
  simp only [COMPILE_COOLDOWN_MS, if_true]
  rw [if_neg hge]
  simp only [hlang, Bool.not_true, Bool.false_eq_true, if_false, hrr, hroom]

theorem compileCode_provider_err (st : ServerState) (sid : Nat) (now : Int)
    (provider : Nat → ProviderOutcome) (code roomId language c m : String)
    (n : Nat) (ds : List Int)
    (hroom : alHas st.rooms roomId = true)
    (hge : ¬ (now - (alGet st.lastCompileTime sid).getD 0 < 3000))
    (hlang : jsPropTruthy (WANDBOX_COMPILERS language) = true)
    (hrr : retryLoop provider 0 2 = ⟨.error (c, m), n, ds⟩) :
    compileCodeHandler st sid now provider code roomId language =
      { state := { st with
          lastCompileTime := alDel (alSet st.lastCompileTime sid now) sid },
        emits := [⟨"codeResponse", Recip.toRoom roomId,
          Payload.runOutput ("Error: " ++ m)⟩],
        calls := n, delays := ds } := by
  unfold compileCodeHandler
  rw [hroom]
  simp only [COMPILE_COOLDOWN_MS, if_true]
  rw [if_neg hge]
  simp only [hlang, Bool.not_true, Bool.false_eq_true, if_false, hrr]

/-! Claim theorems. -/

/-- Claim C1: a room should be in the registry iff its member set is
non-empty, including when a re-join empties the previous room.  The code
violates this: after socket 0 joins r1 as alice and then joins r2, the
join handler's guard removes alice from r1 but never deletes the emptied
room, so r1 stays registered with an empty member set (the leaveRoom and
disconnect handlers do delete emptied rooms, so the guard's omission is
the slip). -/
theorem c1_empty_room_retained :
    alGet (runEvents initState
        [Event.join 0 "r1" "alice", Event.join 0 "r2" "alice"]).rooms "r1"
      = some { users := [], code := "// start code here", output := none } ∧
    alHas (runEvents initState
        [Event.join 0 "r1" "alice", Event.join 0 "r2" "alice"]).rooms "r1" = true := by
  exact ⟨rfl, rfl⟩

/-- Claim C2: with the 3000 ms cooldown, a submission strictly less than
3000 ms after the connection's last accepted one makes no provider call
and broadcasts a wait message whose second count is the remaining wait
rounded up to whole seconds; a submission at 3000 ms or later is accepted
(at least one provider call when the language resolves).  Moreover in the
concrete scenario two submissions 500 ms apart yield exactly one provider
call and a third 3100 ms after the first yields a second one. -/
theorem c2_rate_limit_cooldown (st : ServerState) (sid : Nat) (now : Int)
    (provider : Nat → ProviderOutcome) (code roomId language : String)
    (hroom : alHas st.rooms roomId = true) :
    (now - (alGet st.lastCompileTime sid).getD 0 < 3000 →
      (compileCodeHandler st sid now provider code roomId language).calls = 0 ∧
      (compileCodeHandler st sid now provider code roomId language).emits =
        [⟨"codeResponse", Recip.toRoom roomId, Payload.runOutput
          ("⏳ Please wait "
            ++ toString (ceilSeconds (3000 - (now - (alGet st.lastCompileTime sid).getD 0)))
            ++ "s before running again.")⟩] ∧
      (0 < 3000 - (now - (alGet st.lastCompileTime sid).getD 0) →
        1000 * (ceilSeconds (3000 - (now - (alGet st.lastCompileTime sid).getD 0)) - 1)
            < 3000 - (now - (alGet st.lastCompileTime sid).getD 0) ∧
        3000 - (now - (alGet st.lastCompileTime sid).getD 0)
            ≤ 1000 * ceilSeconds (3000 - (now - (alGet st.lastCompileTime sid).getD 0)))) ∧
    (3000 ≤ now - (alGet st.lastCompileTime sid).getD 0 →
      jsPropTruthy (WANDBOX_COMPILERS language) = true →
      1 ≤ (compileCodeHandler st sid now provider code roomId language).calls) ∧
    (c2run1.calls = 1 ∧ c2run2.calls = 0 ∧ c2run3.calls = 1) := by
  refine ⟨?_, ?_, rfl, rfl, rfl⟩
  · intro hlt
    rw [compileCode_reject st sid now provider code roomId language hroom hlt]
    refine ⟨rfl, rfl, ?_⟩
    intro hpos
    unfold ceilSeconds
    omega
  · intro hge hlang
    have hnlt : ¬ (now - (alGet st.lastCompileTime sid).getD 0 < 3000) := by omega
    cases hrr : retryLoop provider 0 2 with
    | mk res ncalls ds =>
      cases res with
      | ok resp =>
          obtain ⟨room, hroomg⟩ : ∃ room, alGet st.rooms roomId = some room := by
            unfold alHas at hroom
            cases hg : alGet st.rooms roomId with
            | none => rw [hg] at hroom; simp at hroom
            | some room => exact ⟨room, rfl⟩
          rw [compileCode_provider_ok st sid now provider code roomId language
                room resp ncalls ds hroomg hnlt hlang hrr]
          have := retryLoop_calls_pos provider 0 2
          rw [hrr] at this
          exact this
      | error e =>
          obtain ⟨c, m⟩ := e
          rw [compileCode_provider_err st sid now provider code roomId language
                c m ncalls ds hroom hnlt hlang hrr]
          have := retryLoop_calls_pos provider 0 2
          rw [hrr] at this
          exact this

/-- Witness for C2: at the concrete scenario, the second submission
(500 ms after the first accepted one) is rejected with zero provider
calls, and the first (with an empty rate-limit map) is accepted with at
least one provider call. -/
theorem c2_rate_limit_cooldown_witness :
    c2run2.calls = 0 ∧ 1 ≤ c2run1.calls := by
  have h2 := c2_rate_limit_cooldown c2run1.state 0 100500 provOk "x" "r1" "javascript"
      (by decide)
  have h1 := c2_rate_limit_cooldown oneUserState 0 100000 provOk "x" "r1" "javascript"
      (by decide)
  exact ⟨(h2.1 (by decide)).1, h1.2.1 (by decide) rfl⟩

/-- Claim C3: for an accepted submission with a resolvable language, the
handler makes at most 3 provider calls; a non-transient first failure
yields exactly 1 call, a cleared rate-limit entry and an error broadcast
to the whole room; two transient failures then a success yield exactly 3
calls with 1000 ms sleeps between them and a broadcast of the normalized
response; three failures (retries exhausted) yield 3 calls, a cleared
entry and an error broadcast carrying the last error's message. -/
theorem c3_retry_policy (st : ServerState) (sid : Nat) (now : Int)
    (provider : Nat → ProviderOutcome) (code roomId language : String)
    (hroom : alHas st.rooms roomId = true)
    (hge : 3000 ≤ now - (alGet st.lastCompileTime sid).getD 0)
    (hlang : jsPropTruthy (WANDBOX_COMPILERS language) = true) :
    (compileCodeHandler st sid now provider code roomId language).calls ≤ 3 ∧
    (∀ c m, provider 0 = .err c m → ¬ transientCode c →
      (compileCodeHandler st sid now provider code roomId language).calls = 1 ∧
      (compileCodeHandler st sid now provider code roomId language).delays = [] ∧
      alGet (compileCodeHandler st sid now provider code roomId language).state.lastCompileTime sid = none ∧
      (compileCodeHandler st sid now provider code roomId language).emits =
        [⟨"codeResponse", Recip.toRoom roomId, Payload.runOutput ("Error: " ++ m)⟩]) ∧
    (∀ ca ma cb mb resp, provider 0 = .err ca ma → transientCode ca →
      provider 1 = .err cb mb → transientCode cb → provider 2 = .ok resp →
      (compileCodeHandler st sid now provider code roomId language).calls = 3 ∧
      (compileCodeHandler st sid now provider code roomId language).delays = [1000, 1000] ∧
      (compileCodeHandler st sid now provider code roomId language).emits =
        [⟨"codeResponse", Recip.toRoom roomId, Payload.runOutput (normalizeOutput resp)⟩]) ∧
    (∀ ca ma cb mb cc mc, provider 0 = .err ca ma → transientCode ca →
      provider 1 = .err cb mb → transientCode cb → provider 2 = .err cc mc →
      (compileCodeHandler st sid now provider code roomId language).calls = 3 ∧
      (compileCodeHandler st sid now provider code roomId language).delays = [1000, 1000] ∧
      alGet (compileCodeHandler st sid now provider code roomId language).state.lastCompileTime sid = none ∧
      (compileCodeHandler st sid now provider code roomId language).emits =
        [⟨"codeResponse", Recip.toRoom roomId, Payload.runOutput ("Error: " ++ mc)⟩]) := by
  have hnlt : ¬ (now - (alGet st.lastCompileTime sid).getD 0 < 3000) := by omega
  obtain ⟨room, hroomg⟩ : ∃ room, alGet st.rooms roomId = some room := by
    unfold alHas at hroom
    cases hg : alGet st.rooms roomId with
    | none => rw [hg] at hroom; simp at hroom
    | some room => exact ⟨room, rfl⟩
  refine ⟨?_, ?_, ?_, ?_⟩
  · cases hrr : retryLoop provider 0 2 with
    | mk res ncalls ds =>
      have hle := retryLoop_calls_le provider 0 2
      rw [hrr] at hle
      cases res with
      | ok resp =>
          rw [compileCode_provider_ok st sid now provider code roomId language
                room resp ncalls ds hroomg hnlt hlang hrr]
          exact hle
      | error e =>
          obtain ⟨c, m⟩ := e
          rw [compileCode_provider_err st sid now provider code roomId language
                c m ncalls ds hroom hnlt hlang hrr]
          exact hle
  · intro c m h0 hnt
    have hrr := retryLoop_first_nontransient provider c m h0 hnt
    rw [compileCode_provider_err st sid now provider code roomId language
          c m 1 [] hroom hnlt hlang hrr]
    exact ⟨rfl, rfl, alGet_alDel_self _ _, rfl⟩
  · intro ca ma cb mb resp h0 ha h1 hb h2
    have hrr := retryLoop_two_transient_then_ok provider ca ma cb mb resp h0 ha h1 hb h2
    rw [compileCode_provider_ok st sid now provider code roomId language
          room resp 3 [1000, 1000] hroomg hnlt hlang hrr]
    exact ⟨rfl, rfl, rfl⟩
  · intro ca ma cb mb cc mc h0 ha h1 hb h2
    have hrr := retryLoop_exhausted provider ca ma cb mb cc mc h0 ha h1 hb h2
    rw [compileCode_provider_err st sid now provider code roomId language
          cc mc 3 [1000, 1000] hroom hnlt hlang hrr]
    exact ⟨rfl, rfl, alGet_alDel_self _ _, rfl⟩

/-- Witness for C3: a concrete run with two transient failures then a
success makes exactly 3 provider calls with two 1 s sleeps, and a concrete
non-transient failure makes exactly 1 call and clears the rate-limit
entry. -/
theorem c3_retry_policy_witness :
    (compileCodeHandler oneUserState 0 100000 provRetry "x" "r1" "javascript").calls = 3 ∧
    (compileCodeHandler oneUserState 0 100000 provRetry "x" "r1" "javascript").delays = [1000, 1000] ∧
    (compileCodeHandler oneUserState 0 100000 provHardFail "x" "r1" "javascript").calls = 1 ∧
    alGet (compileCodeHandler oneUserState 0 100000 provHardFail "x" "r1" "javascript").state.lastCompileTime 0 = none := by
  have hr := c3_retry_policy oneUserState 0 100000 provRetry "x" "r1" "javascript"
      (by decide) (by decide) rfl
  have hh := c3_retry_policy oneUserState 0 100000 provHardFail "x" "r1" "javascript"
      (by decide) (by decide) rfl
  obtain ⟨h3a, h3b, -⟩ := hr.2.2.1 "ECONNRESET" "socket hang up" "ETIMEDOUT"
      "timeout of 30000ms exceeded" { program_output := "hello\n", status := "0" }
      rfl (Or.inl rfl) rfl (Or.inr rfl) rfl
  obtain ⟨h1a, -, h1c, -⟩ := hh.2.1 "ERR_BAD_REQUEST" "Request failed with status code 400"
      rfl (by intro h; cases h <;> simp_all)
  exact ⟨h3a, h3b, h1a, h1c⟩

/-- Claim C8: an unlisted language tag should make no network call and
immediately broadcast an unsupported-language result.  The code violates
this for tags naming Object.prototype properties: `"toString"` has no
entry in the static table, yet the bracket lookup finds the truthy
inherited Object.prototype.toString, `if (!compiler)` does not fire, and
the handler calls the provider (one call here, with the success response
broadcast instead of the unsupported message).  For a genuinely undefined
tag like `"ruby"` the unsupported branch does work (zero calls), showing
the branch exists and the prototype-chain leak is the slip. -/
theorem c8_prototype_lookup_call :
    WANDBOX_COMPILERS "toString" = JsProp.inherited ∧
    jsPropTruthy (WANDBOX_COMPILERS "toString") = true ∧
    (compileCodeHandler oneUserState 0 100000 provOk "x" "r1" "toString").calls = 1 ∧
    (compileCodeHandler oneUserState 0 100000 provOk "x" "r1" "toString").emits =
      [⟨"codeResponse", Recip.toRoom "r1", Payload.runOutput "hello\n"⟩] ∧
    (compileCodeHandler oneUserState 0 100000 provOk "x" "r1" "ruby").calls = 0 ∧
    (compileCodeHandler oneUserState 0 100000 provOk "x" "r1" "ruby").emits =
      [⟨"codeResponse", Recip.toRoom "r1",
        Payload.runOutput ("Error: Unsupported language \"" ++ "ruby" ++ "\"")⟩] := by
  exact ⟨rfl, rfl, rfl, rfl, rfl, rfl⟩

/-- Claim C10: a submission rejected by the rate limit leaves the
connection's rate-limit timestamp (indeed the whole server state)
unchanged, so the cooldown keeps being measured from the last accepted
submission. -/
theorem c10_reject_frame (st : ServerState) (sid : Nat) (now : Int)
    (provider : Nat → ProviderOutcome) (code roomId language : String)
    (hroom : alHas st.rooms roomId = true)
    (hlt : now - (alGet st.lastCompileTime sid).getD 0 < 3000) :
    (compileCodeHandler st sid now provider code roomId language).state.lastCompileTime
      = st.lastCompileTime ∧
    (compileCodeHandler st sid now provider code roomId language).state = st := by
  rw [compileCode_reject st sid now provider code roomId language hroom hlt]
  exact ⟨rfl, rfl⟩

/-- Witness for C10: the concrete rejected second submission of the
scenario leaves the rate-limit map (stamped at 100000) unchanged. -/
theorem c10_reject_frame_witness :
    c2run2.state.lastCompileTime = c2run1.state.lastCompileTime ∧
    c2run2.state = c2run1.state :=
  c10_reject_frame c2run1.state 0 100500 provOk "x" "r1" "javascript"
    (by decide) (by decide)

/-- Claim C5: codeChange on a registered room overwrites the document with
exactly the given text (last write wins), broadcasts one codeUpdate to the
room minus the sender, and re-applying the same text changes neither the
room registry nor the broadcast content. -/
theorem c5_code_change_lww (st : ServerState) (sid : Nat) (roomId text : String) (room : Room)
    (h : alGet st.rooms roomId = some room) :
    alGet (codeChangeHandler st sid roomId text).1.rooms roomId = some { room with code := text } ∧
    (codeChangeHandler st sid roomId text).2 =
      [⟨"codeUpdate", Recip.toRoomExcept roomId sid, Payload.text text⟩] ∧
    (codeChangeHandler (codeChangeHandler st sid roomId text).1 sid roomId text).1.rooms =
      (codeChangeHandler st sid roomId text).1.rooms ∧
    (codeChangeHandler (codeChangeHandler st sid roomId text).1 sid roomId text).2 =
      (codeChangeHandler st sid roomId text).2 := by
  have h1 : codeChangeHandler st sid roomId text =
      ({ st with rooms := alSet st.rooms roomId { room with code := text } },
       [⟨"codeUpdate", Recip.toRoomExcept roomId sid, Payload.text text⟩]) := by
    unfold codeChangeHandler
    rw [h]
  have h2 : alGet (alSet st.rooms roomId { room with code := text }) roomId
      = some { room with code := text } := alGet_alSet_self _ _ _
  have h3 : codeChangeHandler
      { st with rooms := alSet st.rooms roomId { room with code := text } } sid roomId text =
      ({ st with rooms := alSet st.rooms roomId { room with code := text } },
       [⟨"codeUpdate", Recip.toRoomExcept roomId sid, Payload.text text⟩]) := by
    unfold codeChangeHandler
    rw [show alGet ({ st with rooms := alSet st.rooms roomId { room with code := text } } : ServerState).rooms roomId
          = some { room with code := text } from h2]
    simp only [alSet_alSet_self]
  rw [h1]
  exact ⟨h2, rfl, by rw [h3], by rw [h3]⟩

/-- Witness for C5: the concrete room r1 after alice joined; a codeChange
overwrites the default document and re-applying it is a no-op. -/
theorem c5_code_change_lww_witness :
    alGet (codeChangeHandler oneUserState 0 "r1" "print(1)").1.rooms "r1"
      = some { users := ["alice"], code := "print(1)", output := none } ∧
    (codeChangeHandler oneUserState 0 "r1" "print(1)").2 =
      [⟨"codeUpdate", Recip.toRoomExcept "r1" 0, Payload.text "print(1)"⟩] ∧
    (codeChangeHandler (codeChangeHandler oneUserState 0 "r1" "print(1)").1 0 "r1" "print(1)").1.rooms =
      (codeChangeHandler oneUserState 0 "r1" "print(1)").1.rooms ∧
    (codeChangeHandler (codeChangeHandler oneUserState 0 "r1" "print(1)").1 0 "r1" "print(1)").2 =
      (codeChangeHandler oneUserState 0 "r1" "print(1)").2 :=
  c5_code_change_lww oneUserState 0 "r1" "print(1)"
    { users := ["alice"], code := "// start code here", output := none } (by decide)

/-- Counterexample to claim C6 as stated: in `ghostRoomState` the
registry has no room r1, yet a languageChange targeting r1 emits a
languageUpdate that is delivered to connection 1, which is still in the
transport-level (socket.io) room r1.  So "no event is broadcast to any
connection" fails for languageChange (and typing, which also skips the
registry check). -/
theorem c6_ghost_delivery_counterexample :
    alHas ghostRoomState.rooms "r1" = false ∧
    (languageChangeHandler ghostRoomState 0 "r1" "python").2.any
        (fun e => delivers ghostRoomState e 1) = true := by
  exact ⟨rfl, rfl⟩

/-- Claim C6 amended: actions on an unregistered room id never change room
or rate-limit state; codeChange and compileCode are dropped with no emit
at all, while typing and languageChange (which perform no registry check)
still emit to the transport-level room and may reach connections that
remain joined to it. -/
theorem c6_absent_room_drops (st : ServerState) (sid : Nat) (now : Int)
    (provider : Nat → ProviderOutcome) (roomId code userName language : String)
    (h : alHas st.rooms roomId = false) :
    codeChangeHandler st sid roomId code = (st, []) ∧
    compileCodeHandler st sid now provider code roomId language =
      { state := st, emits := [], calls := 0, delays := [] } ∧
    (typingHandler st sid roomId userName).1 = st ∧
    (typingHandler st sid roomId userName).2 =
      [⟨"userTyping", Recip.toRoomExcept roomId sid, Payload.text userName⟩] ∧
    (languageChangeHandler st sid roomId language).1 = st ∧
    (languageChangeHandler st sid roomId language).2 =
      [⟨"languageUpdate", Recip.toRoom roomId, Payload.text language⟩] := by
  have hg := alGet_eq_none_of_alHas_false h
  refine ⟨?_, compileCode_drop st sid now provider code roomId language h, rfl, rfl, rfl, rfl⟩
  unfold codeChangeHandler
  rw [hg]

/-- Witness for C6 (amended): the concrete ghost-room state, where r1 is
unregistered. -/
theorem c6_absent_room_drops_witness :
    codeChangeHandler ghostRoomState 0 "r1" "x" = (ghostRoomState, []) ∧
    compileCodeHandler ghostRoomState 0 100000 provOk "x" "r1" "javascript" =
      { state := ghostRoomState, emits := [], calls := 0, delays := [] } ∧
    (typingHandler ghostRoomState 0 "r1" "alice").1 = ghostRoomState ∧
    (typingHandler ghostRoomState 0 "r1" "alice").2 =
      [⟨"userTyping", Recip.toRoomExcept "r1" 0, Payload.text "alice"⟩] ∧
    (languageChangeHandler ghostRoomState 0 "r1" "javascript").1 = ghostRoomState ∧
    (languageChangeHandler ghostRoomState 0 "r1" "javascript").2 =
      [⟨"languageUpdate", Recip.toRoom "r1", Payload.text "javascript"⟩] :=
  c6_absent_room_drops ghostRoomState 0 100000 provOk "r1" "x" "alice" "javascript"
    (by decide)

/-- Counterexample to claim C7 as stated: with compiler text "warn" and
program output "out" both present, the code produces "warnout" — compiler
text and program output are concatenated with no newline between them —
while the claim's each-on-its-own-line reading produces a
newline-separated result. -/
theorem c7_missing_newline_counterexample :
    normalizeOutput { compiler_error := "warn", program_output := "out", status := "0" }
      = "warnout" ∧
    specSeparatedNormalize { compiler_error := "warn", program_output := "out", status := "0" }
      = "warn" ++ "\n" ++ "out" ∧
    ¬ (normalizeOutput { compiler_error := "warn", program_output := "out", status := "0" }
        = specSeparatedNormalize { compiler_error := "warn", program_output := "out", status := "0" }) := by
  refine ⟨rfl, rfl, ?_⟩
  decide

/-- Claim C7 amended: the normalized result concatenates compiler text and
program output directly, precedes program error text by a newline exactly
when earlier text exists, and when all three are empty reports "(No
output)" for a provider-signalled success (status "0") and
"Compilation/runtime error" otherwise. -/
theorem c7_normalization_shape (data : WandboxResponse) :
    normalizeOutput data = normalizeCharacterization data := by
  unfold normalizeOutput normalizeCharacterization
  by_cases h1 : data.compiler_error = "" <;>
    by_cases h2 : data.program_output = "" <;>
      by_cases h3 : data.program_error = "" <;>
        simp [h1, h2, h3, String.append_empty, String.empty_append,
          string_append_eq_empty_iff, show ¬("\n" : String) = "" by decide]

/-- Counterexample to claim C4 as stated: when bob joins r1 (where alice
already is), the emitted sequence starts with the whole-room "bob joined
the room" toast, so no joiner-only snapshot precedes every whole-room
emit, and no language snapshot is sent to the joiner at all. -/
theorem c4_join_order_counterexample :
    c4SnapshotFirst (joinHandler oneUserState 1 "r1" "bob").2 1 = false ∧
    (joinHandler oneUserState 1 "r1" "bob").2 =
      [⟨"toast", Recip.toRoom "r1", Payload.text "bob joined the room"⟩,
       ⟨"codeUpdate", Recip.toSock 1, Payload.text "// start code here"⟩,
       ⟨"userJoined", Recip.toRoom "r1", Payload.userList ["alice", "bob"]⟩] := by
  exact ⟨rfl, rfl⟩

theorem mem_setAdd_self (l : List String) (u : String) : u ∈ setAdd l u := by
  unfold setAdd
  by_cases h : u ∈ l <;> simp [h]

theorem inSio_sioJoin (j : List (Nat × List String)) (sid : Nat) (r : String) :
    ((alGet (sioJoin j sid r) sid).getD []).contains r = true := by
  unfold sioJoin
  rw [alGet_alSet_self]
  by_cases h : r ∈ (alGet j sid).getD [] <;> simp [h]

theorem joinPrevPhase_emits (st : ServerState) (sid : Nat) :
    ∀ e ∈ (joinPrevPhase st sid).2, e.event = "userJoined" := by
  unfold joinPrevPhase
  by_cases h : optTruthy (getSock st sid).currentRoom = true
  · simp only [h, if_true]
    split <;> simp_all
  · simp only [Bool.not_eq_true] at h
    simp [h]

theorem joinMainPhase_spec (st : ServerState) (sid : Nat) (roomId userName : String) :
    ∃ room : Room,
      (joinMainPhase st sid roomId userName).2 =
        [⟨"toast", Recip.toRoom roomId, Payload.text (userName ++ " joined the room")⟩,
         ⟨"codeUpdate", Recip.toSock sid, Payload.text room.code⟩,
         ⟨"userJoined", Recip.toRoom roomId, Payload.userList room.users⟩] ∧
      alGet (joinMainPhase st sid roomId userName).1.rooms roomId = some room ∧
      userName ∈ room.users ∧
      inSio (joinMainPhase st sid roomId userName).1 sid roomId = true := by
  refine ⟨_, rfl, ?_, ?_, ?_⟩
  · exact alGet_alSet_self _ _ _
  · exact mem_setAdd_self _ _
  · have hj : (joinMainPhase st sid roomId userName).1.joined
        = sioJoin st.joined sid roomId := by
      unfold joinMainPhase
      dsimp only
      split <;> rfl
    unfold inSio
    rw [hj]
    exact inSio_sioJoin st.joined sid roomId

/-- Claim C4 amended: every join emits — after the membership update of an
implicitly left previous room, whose emits are all userJoined events — the
whole-room "X joined" toast first, then the current document (codeUpdate)
to the joining connection alone (no language tag is stored or sent), then
the updated membership list (userJoined) to the whole room, which includes
the joiner since the socket has already joined the transport-level room. -/
theorem c4_join_emit_shape (st : ServerState) (sid : Nat) (roomId userName : String) :
    ∃ (pre : List Emit) (room : Room),
      (joinHandler st sid roomId userName).2 =
        pre ++
        [⟨"toast", Recip.toRoom roomId, Payload.text (userName ++ " joined the room")⟩,
         ⟨"codeUpdate", Recip.toSock sid, Payload.text room.code⟩,
         ⟨"userJoined", Recip.toRoom roomId, Payload.userList room.users⟩] ∧
      alGet (joinHandler st sid roomId userName).1.rooms roomId = some room ∧
      userName ∈ room.users ∧
      inSio (joinHandler st sid roomId userName).1 sid roomId = true ∧
      (∀ e ∈ pre, e.event = "userJoined") := by
  obtain ⟨room, hq1, hq2, hq3, hq4⟩ :=
    joinMainPhase_spec (joinPrevPhase st sid).1 sid roomId userName
  refine ⟨(joinPrevPhase st sid).2, room, ?_, hq2, hq3, hq4, joinPrevPhase_emits st sid⟩
  show (joinPrevPhase st sid).2
      ++ (joinMainPhase (joinPrevPhase st sid).1 sid roomId userName).2 = _
  rw [hq1]

/-! Lemmas for the single-membership invariant. -/

theorem alGet_mem {K V : Type} [BEq K] [LawfulBEq K] {m : List (K × V)} {k : K} {v : V}
    (h : alGet m k = some v) : (k, v) ∈ m := by
  induction m with
  | nil => simp [alGet] at h
  | cons p rest ih =>
      by_cases hb : (p.1 == k) = true
      · simp only [alGet, hb, if_true, Option.some.injEq] at h
        have hk : p.1 = k := eq_of_beq hb
        have : p = (k, v) := by
          cases p
          simp_all
        rw [← this]
        exact List.mem_cons_self _ _
      · simp only [alGet, hb, if_false] at h
        exact List.mem_cons_of_mem _ (ih h)

theorem ne_key_of_alGet_none {K V : Type} [BEq K] [LawfulBEq K] {m : List (K × V)} {k : K}
    (h : alGet m k = none) : ∀ p ∈ m, p.1 ≠ k := by
  induction m with
  | nil => simp
  | cons q rest ih =>
      by_cases hb : (q.1 == k) = true
      · simp [alGet, hb] at h
      · simp only [alGet, hb, if_false] at h
        intro p hp
        rcases List.mem_cons.mp hp with rfl | hp2
        · simpa using hb
        · exact ih h p hp2

theorem mem_alSet_nodup {K V : Type} [BEq K] [LawfulBEq K] {m : List (K × V)} {k : K} {v : V}
    {p : K × V} (hnd : (alKeys m).Nodup) (hp : p ∈ alSet m k v) :
    p = (k, v) ∨ (p ∈ m ∧ p.1 ≠ k) := by
  induction m with
  | nil => simpa [alSet] using hp
  | cons q rest ih =>
      rw [alKeys, List.map_cons, List.nodup_cons] at hnd
      by_cases hb : (q.1 == k) = true
      · have hk : q.1 = k := eq_of_beq hb
        simp only [alSet, hb, if_true] at hp
        rcases List.mem_cons.mp hp with rfl | hp2
        · exact Or.inl rfl
        · refine Or.inr ⟨List.mem_cons_of_mem _ hp2, ?_⟩
          intro hpk
          exact hnd.1 (by rw [← hk] at hpk; rw [← hpk]; exact List.mem_map_of_mem _ hp2)
      · simp only [alSet, hb, if_false] at hp
        rcases List.mem_cons.mp hp with rfl | hp2
        · exact Or.inr ⟨List.mem_cons_self _ _, by simpa using hb⟩
        · rcases ih hnd.2 hp2 with h | ⟨h1, h2⟩
          · exact Or.inl h
          · exact Or.inr ⟨List.mem_cons_of_mem _ h1, h2⟩

theorem alKeys_alSet_sub {K V : Type} [BEq K] [LawfulBEq K] {m : List (K × V)} {k a : K}
    {v : V} (h : a ∈ alKeys (alSet m k v)) : a = k ∨ a ∈ alKeys m := by
  induction m with
  | nil => simpa [alSet, alKeys] using h
  | cons p rest ih =>
      cases hb : p.1 == k with
      | true =>
          simp [alSet, hb, alKeys] at h ⊢
          tauto
      | false =>
          simp [alSet, hb, alKeys] at h ⊢
          rcases h with hc | hc
          · exact Or.inr (Or.inl hc)
          · rcases ih (by simpa [alKeys] using hc) with h2 | h2
            · exact Or.inl h2
            · exact Or.inr (Or.inr (by simpa [alKeys] using h2))

theorem alKeys_alSet_nodup {K V : Type} [BEq K] [LawfulBEq K] {m : List (K × V)} (k : K)
    (v : V) (hnd : (alKeys m).Nodup) : (alKeys (alSet m k v)).Nodup := by
  induction m with
  | nil => simp [alSet, alKeys]
  | cons p rest ih =>
      rw [alKeys, List.map_cons, List.nodup_cons] at hnd
      cases hb : p.1 == k with
      | true =>
          have hk : p.1 = k := eq_of_beq hb
          simp only [alSet, hb, if_true, alKeys, List.map_cons, List.nodup_cons]
          exact ⟨by rw [← hk]; exact hnd.1, hnd.2⟩
      | false =>
          simp only [alSet, hb, alKeys, List.map_cons, List.nodup_cons, Bool.false_eq_true,
            if_false]
          refine ⟨?_, ih hnd.2⟩
          intro hmem
          rcases alKeys_alSet_sub (v := v) (by simpa [alKeys] using hmem) with h | h
          · exact (by simpa using hb : ¬ p.1 = k) h
          · exact hnd.1 (by simpa [alKeys] using h)

theorem length_le_one_of_nodup_const {α : Type} {l : List α} {c : α}
    (hnd : l.Nodup) (h : ∀ a ∈ l, a = c) : l.length ≤ 1 := by
  cases l with
  | nil => simp
  | cons a t =>
      cases t with
      | nil => simp
      | cons b t2 =>
          exfalso
          have hab : a ≠ b := by
            have := (List.nodup_cons.mp hnd).1
            intro he
            exact this (by rw [he]; exact List.mem_cons_self _ _)
          exact hab ((h a (by simp)).trans (h b (by simp)).symm)

theorem optErase_of_users_nil (o : Option String) : optErase [] o = [] := by
  cases o <;> simp [optErase]

theorem joinPrevPhase_solo (st : ServerState) (h : soloInv st) :
    (alKeys (joinPrevPhase st 0).1.rooms).Nodup ∧
    (∀ p ∈ (joinPrevPhase st 0).1.rooms, p.2.users = []) ∧
    (joinPrevPhase st 0).1.socks = st.socks := by
  obtain ⟨hnd, hinv, hne⟩ := h
  unfold joinPrevPhase
  dsimp only
  split
  case isTrue ht =>
    obtain ⟨c, hc⟩ : ∃ c, (getSock st 0).currentRoom = some c := by
      cases hcc : (getSock st 0).currentRoom with
      | none => rw [hcc] at ht; simp [optTruthy] at ht
      | some c => exact ⟨c, rfl⟩
    split
    case h_1 prevRoom heq =>
      rw [hc] at heq
      dsimp only [Option.getD] at heq
      have hmemprev : (c, prevRoom) ∈ st.rooms := alGet_mem heq
      have hprev2 : optErase prevRoom.users (getSock st 0).currentUser = [] := by
        rcases hinv (c, prevRoom) hmemprev with hempty | ⟨_, u, hcu, husers⟩
        · rw [hempty]
          exact optErase_of_users_nil _
        · rw [husers, hcu]
          simp [optErase]
      refine ⟨?_, ?_, rfl⟩
      · exact alKeys_alSet_nodup _ _ hnd
      · intro p hp
        rcases mem_alSet_nodup hnd hp with rfl | ⟨hpm, hpk⟩
        · exact hprev2
        · rcases hinv p hpm with hempty | ⟨hcr2, _⟩
          · exact hempty
          · exfalso
            rw [hc] at hcr2
            rw [hc]  at hpk
            exact hpk (by injection hcr2 with hh; exact hh.symm) |>.elim
    case h_2 heq =>
      rw [hc] at heq
      dsimp only [Option.getD] at heq
      refine ⟨hnd, ?_, rfl⟩
      intro p hp
      rcases hinv p hp with hempty | ⟨hcr2, _⟩
      · exact hempty
      · exfalso
        rw [hc] at hcr2
        have : p.1 = c := by injection hcr2 with hh; exact hh.symm
        exact ne_key_of_alGet_none heq p hp this
  case isFalse ht =>
    have hcr : (getSock st 0).currentRoom = none := by
      cases hcc : (getSock st 0).currentRoom with
      | none => rfl
      | some c =>
          exfalso
          rw [hcc] at ht
          simp [optTruthy] at ht
          exact hne c hcc ht
    refine ⟨hnd, ?_, rfl⟩
    intro p hp
    rcases hinv p hp with hempty | ⟨hcr2, _⟩
    · exact hempty
    · rw [hcr] at hcr2
      cases hcr2

theorem soloInv_mainAux (m : List (String × Room)) (r u : String) (hr : r ≠ "")
    (hnd : (alKeys m).Nodup) (hemp : ∀ p ∈ m, p.2.users = [])
    (st2 : ServerState)
    (hrooms : st2.rooms = alSet m r
      { (alGet m r).getD defaultRoom with
        users := setAdd ((alGet m r).getD defaultRoom).users u })
    (hsock : getSock st2 0 = ⟨some r, some u⟩) :
    soloInv st2 := by
  have hbase : ((alGet m r).getD defaultRoom).users = [] := by
    cases hg : alGet m r with
    | none => simp [defaultRoom]
    | some rm => simpa using hemp (r, rm) (alGet_mem hg)
  have husers : setAdd ((alGet m r).getD defaultRoom).users u = [u] := by
    rw [hbase]
    simp [setAdd]
  refine ⟨?_, ?_, ?_⟩
  · rw [hrooms]
    exact alKeys_alSet_nodup _ _ hnd
  · intro p hp
    rw [hrooms] at hp
    rcases mem_alSet_nodup hnd hp with rfl | ⟨hpm, _⟩
    · right
      rw [hsock]
      exact ⟨rfl, u, rfl, by simpa using husers⟩
    · left
      exact hemp p hpm
  · intro c hc
    rw [hsock] at hc
    cases hc
    exact hr

theorem joinMainPhase_solo (st : ServerState) (r u : String) (hr : r ≠ "")
    (hnd : (alKeys st.rooms).Nodup) (hemp : ∀ p ∈ st.rooms, p.2.users = []) :
    soloInv (joinMainPhase st 0 r u).1 := by
  by_cases hhas : alHas st.rooms r = true
  · apply soloInv_mainAux st.rooms r u hr hnd hemp
    · unfold joinMainPhase
      dsimp only
      rw [if_pos hhas]
    · unfold joinMainPhase getSock
      dsimp only
      rw [if_pos hhas]
      dsimp only
      rw [alGet_alSet_self]
      rfl
  · rw [Bool.not_eq_true] at hhas
    have hnone : alGet st.rooms r = none := alGet_eq_none_of_alHas_false hhas
    have hnd2 : (alKeys (alSet st.rooms r defaultRoom)).Nodup := alKeys_alSet_nodup _ _ hnd
    have hemp2 : ∀ p ∈ alSet st.rooms r defaultRoom, p.2.users = [] := by
      intro p hp
      rcases mem_alSet_nodup hnd hp with rfl | ⟨hpm, _⟩
      · rfl
      · exact hemp p hpm
    apply soloInv_mainAux (alSet st.rooms r defaultRoom) r u hr hnd2 hemp2
    · unfold joinMainPhase
      dsimp only
      rw [if_neg (by rw [hhas]; exact Bool.false_ne_true)]
    · unfold joinMainPhase getSock
      dsimp only
      rw [if_neg (by rw [hhas]; exact Bool.false_ne_true)]
      dsimp only
      rw [alGet_alSet_self]
      rfl

theorem soloInv_joinHandler (st : ServerState) (h : soloInv st) (r u : String)
    (hr : r ≠ "") : soloInv (joinHandler st 0 r u).1 := by
  obtain ⟨hnd2, hemp2, _⟩ := joinPrevPhase_solo st h
  exact joinMainPhase_solo (joinPrevPhase st 0).1 r u hr hnd2 hemp2

theorem soloInv_initState : soloInv initState := by
  refine ⟨List.nodup_nil, ?_, ?_⟩
  · intro p hp
    simp [initState] at hp
  · intro c hc
    simp [getSock, initState, alGet, defaultSock] at hc

theorem countRoomsWithMember_le_one (st : ServerState) (h : soloInv st) (name : String) :
    countRoomsWithMember st.rooms name ≤ 1 := by
  obtain ⟨hnd, hinv, _⟩ := h
  unfold countRoomsWithMember
  cases hcr : (getSock st 0).currentRoom with
  | none =>
      have hfil : st.rooms.filter (fun p => decide (name ∈ p.2.users)) = [] := by
        rw [List.filter_eq_nil_iff]
        intro p hp hdec
        have hmem : name ∈ p.2.users := of_decide_eq_true hdec
        rcases hinv p hp with hempty | ⟨hcr2, _⟩
        · rw [hempty] at hmem
          simp at hmem
        · rw [hcr] at hcr2
          cases hcr2
      simp [hfil]
  | some c =>
      have hkeys : ∀ q ∈ (st.rooms.filter (fun p => decide (name ∈ p.2.users))).map Prod.fst,
          q = c := by
        intro q hq
        obtain ⟨p, hp, rfl⟩ := List.mem_map.mp hq
        have hpf := List.mem_filter.mp hp
        have hmem : name ∈ p.2.users := of_decide_eq_true hpf.2
        rcases hinv p hpf.1 with hempty | ⟨hcr2, _⟩
        · rw [hempty] at hmem
          simp at hmem
        · rw [hcr] at hcr2
          injection hcr2 with hh
          exact hh.symm
      have hndf : ((st.rooms.filter (fun p => decide (name ∈ p.2.users))).map Prod.fst).Nodup := by
        have hsub : List.Sublist
            ((st.rooms.filter (fun p => decide (name ∈ p.2.users))).map Prod.fst)
            (st.rooms.map Prod.fst) := (List.filter_sublist st.rooms).map Prod.fst
        exact (show (st.rooms.map Prod.fst).Nodup from hnd).sublist hsub
      have hlen := length_le_one_of_nodup_const hndf hkeys
      simpa using hlen

/-- Counterexample to claim C9 as stated: the join handler's leave guard
tests JS truthiness, and the empty string is falsy, so after joining room
"" and then room r2 the name "a" is a member of two registered rooms at
once. -/
theorem c9_two_rooms_counterexample :
    ¬ (countRoomsWithMember (joinSeq [("", "a"), ("r2", "a")]).rooms "a" ≤ 1) := by
  decide

/-- Claim C9 amended: for a lone connection executing any sequence of join
events whose room ids are all non-empty, its display name (indeed any
name) is a member of at most one registered room at any instant — the
guard removes the name from the previous room before the new room's
member set gains it.  Instants correspond to prefixes, and the sequence is
universally quantified, so the bound holds at every instant. -/
theorem c9_single_room_membership (evs : List (String × String))
    (hne : ∀ p ∈ evs, p.1 ≠ "") (name : String) :
    countRoomsWithMember (joinSeq evs).rooms name ≤ 1 := by
  have aux : ∀ (l : List (String × String)) (st : ServerState), soloInv st →
      (∀ p ∈ l, p.1 ≠ "") →
      soloInv (runEvents st (l.map (fun p => Event.join 0 p.1 p.2))) := by
    intro l
    induction l with
    | nil =>
        intro st hst _
        exact hst
    | cons p rest ih =>
        intro st hst hne2
        have h1 : soloInv (joinHandler st 0 p.1 p.2).1 :=
          soloInv_joinHandler st hst p.1 p.2 (hne2 p (List.mem_cons_self _ _))
        exact ih (joinHandler st 0 p.1 p.2).1 h1 (fun q hq => hne2 q (List.mem_cons_of_mem _ hq))
  exact countRoomsWithMember_le_one _ (aux evs initState soloInv_initState hne) name

/-- Witness for C9 (amended): a concrete re-join sequence with non-empty
room ids keeps "a" in at most one registered room. -/
theorem c9_single_room_membership_witness :
    countRoomsWithMember (joinSeq [("r1", "a"), ("r2", "a")]).rooms "a" ≤ 1 :=
  c9_single_room_membership [("r1", "a"), ("r2", "a")] (by decide) "a"

end RtcServer
